import Mathlib

/-!
Verification development for the ed-upload-manager repository.

We shallowly embed the two core operations of the Upload Lifecycle Engine:

* `handle_gcs_finalize_push` from `app/services/gcs_finalize.py` (the
  Finalize Event Processor), together with its routing helper
  `_detect_job_topic`;
* `do_process` and `_object_key_for` from
  `app/api/handler/create_upload_session_handler.py` (the Resumable
  Upload Initiator).

The persistence layer (`FileDAL`, `UploadSessionDAL`, `generate_id`) lives
in the external `platform_common` package and is not part of this
repository; those operations are modelled from the spec, as marked on each
definition.  Stores are association lists of rows; statuses are the string
literals the source uses.
-/

namespace UploadManager

/-! ## Python string primitives used by the source -/

/-- Python truthiness of an optional string: `None` and the empty string
are falsy, everything else is truthy. -/
def truthy : Option String → Bool
  | none => false
  | some s => !(s == "")

/-- Python `x or d` on an optional string: falsy values give the default. -/
def orDefault (o : Option String) (d : String) : String :=
  match o with
  | none => d
  | some s => if s == "" then d else s

/-- Python `str.lower`, character by character (ASCII contents suffice for
the content types in the source). -/
def pyLower (s : String) : String :=
  ⟨s.data.map Char.toLower⟩

/-- Python `str.startswith`. -/
def pyStartsWith (s pat : String) : Bool :=
  pat.data.isPrefixOf s.data

/-- Python `object_key.rsplit("/", 1)[-1]`: the part after the last slash,
or the whole string when it has no slash. -/
def lastSegment (s : String) : String :=
  ⟨(s.data.reverse.takeWhile (fun c => !(c == '/'))).reverse⟩

/-- Python `str.replace(" ", "_")`: a single-character replace is a
character-wise map. -/
def replaceSpace (s : String) : String :=
  ⟨s.data.map (fun c => if c == ' ' then '_' else c)⟩

/-- Accumulator for `digitsToNat`. -/
def digitsToNatAux : List Char → Nat → Option Nat
  | [], acc => some acc
  | c :: r, acc =>
      if c.isDigit then digitsToNatAux r (acc * 10 + (c.toNat - 48)) else none

/-- Decimal digits to a number; the empty list fails. -/
def digitsToNat : List Char → Option Nat
  | [] => none
  | l => digitsToNatAux l 0

/-- Modelled from Python `int(str)`: an optional sign followed by at least
one decimal digit.  (Python additionally tolerates surrounding whitespace
and underscore grouping; no claim depends on those inputs.) -/
def pyParseInt (s : String) : Option Int :=
  match s.data with
  | '-' :: rest => (digitsToNat rest).map (fun n => -(n : Int))
  | '+' :: rest => (digitsToNat rest).map (fun n => (n : Int))
  | l => (digitsToNat l).map (fun n => (n : Int))

/-- Python `"/".join(parts)`. -/
def joinSlash : List String → String
  | [] => ""
  | [a] => a
  | a :: b :: rest => a ++ "/" ++ joinSlash (b :: rest)

/-! ## Data model

Rows of the two entities, as used by the handlers in `src`.  The File
session link is called `upload_id` here, matching the field the finalize
handler reads (`file_row.upload_id`); the create handler populates the
same link under the name `upload_session_id`. -/

structure SessionRow where
  id : String
  datastore_id : String
  tags : List String
  status : String
deriving DecidableEq, Repr

structure FileRow where
  id : String
  datastore_id : String
  upload_id : Option String
  bucket : String
  storage_provider : String
  object_key : String
  filename : String
  content_type : String
  size : Int
  checksum_md5 : Option String
  checksum_crc32c : Option String
  status : String
deriving DecidableEq, Repr

structure Store where
  sessions : List SessionRow
  files : List FileRow
deriving DecidableEq, Repr

/-- The empty store. -/
def Store.empty : Store := ⟨[], []⟩

/-- Status of the first session row with the given id. -/
def sessionStatus (st : Store) (sid : String) : Option String :=
  (st.sessions.find? (fun s => s.id == sid)).map (fun s => s.status)

/-- Status of the first file row with the given object key. -/
def fileStatus (st : Store) (key : String) : Option String :=
  (st.files.find? (fun f => f.object_key == key)).map (fun f => f.status)

/-- Session link of the first file row with the given object key. -/
def fileLinkAt (st : Store) (key : String) : Option (Option String) :=
  (st.files.find? (fun f => f.object_key == key)).map (fun f => f.upload_id)

/-- Size of the first file row with the given object key. -/
def fileSizeAt (st : Store) (key : String) : Option Int :=
  (st.files.find? (fun f => f.object_key == key)).map (fun f => f.size)

/-! ## Store operations

Modelled from the spec: the DAL layer (`platform_common.db.dal`) is not in
this repository; these definitions follow spec sections 3, 4.3 and the
Store collaborator contract of section 6. -/

/-- Update every session row with the given id. -/
def updSession (st : Store) (sid : String) (u : SessionRow → SessionRow) : Store :=
  { st with sessions := st.sessions.map (fun s => if s.id == sid then u s else s) }

/-- Update every file row with the given file id. -/
def updFile (st : Store) (fid : String) (u : FileRow → FileRow) : Store :=
  { st with files := st.files.map (fun f => if f.id == fid then u f else f) }

/-- Modelled from the spec: `UploadSessionDAL.mark_uploaded` (not in src).
Spec 4.3 step 4: idempotent; setting an already-uploaded-or-later session
to `uploaded` is a no-op.  Only `initiated`/`authorized` sessions move. -/
def markUploaded (st : Store) (sid : String) : Store :=
  updSession st sid (fun s =>
    if s.status == "initiated" || s.status == "authorized" then
      { s with status := "uploaded" } else s)

/-- Modelled from the spec: `UploadSessionDAL.mark_processing` (not in
src).  The spec states no guard for this setter. -/
def markProcessing (st : Store) (sid : String) : Store :=
  updSession st sid (fun s => { s with status := "processing" })

/-- Modelled from the spec: `UploadSessionDAL.mark_ready` (not in src). -/
def markReady (st : Store) (sid : String) : Store :=
  updSession st sid (fun s => { s with status := "ready" })

/-- Modelled from the spec: `FileDAL.mark_status` (not in src). -/
def fileMarkStatus (st : Store) (fid : String) (stat : String) : Store :=
  updFile st fid (fun f => { f with status := stat })

/-- Modelled from the spec: `FileDAL.link_upload` (not in src).  Sets the
File session link; the caller enforces set-once by only calling it when
the link is unset. -/
def linkUpload (st : Store) (fid : String) (uid : String) : Store :=
  updFile st fid (fun f => { f with upload_id := some uid })

/-- Modelled from the spec: `FileDAL.create_or_update_from_finalize` (not
in src).  Spec 4.3 step 3: upsert keyed by `object_key`; if absent create
the row (the fresh row id is passed in by the caller, standing for the
generated id); if present merge in `content_type`, `size`, checksums and
set status to `processing`; the session link is only seeded on create
(set-once, spec section 3).  Returns the resulting row and store. -/
def createOrUpdateFromFinalize (st : Store) (freshId did bucket key filename ctype : String)
    (size : Int) (md5 crc : Option String) (uid : Option String) : FileRow × Store :=
  match st.files.find? (fun f => f.object_key == key) with
  | none =>
      let row : FileRow :=
        { id := freshId, datastore_id := did, upload_id := uid, bucket := bucket,
          storage_provider := "gcs", object_key := key, filename := filename,
          content_type := ctype, size := size, checksum_md5 := md5,
          checksum_crc32c := crc, status := "processing" }
      (row, { st with files := st.files ++ [row] })
  | some f =>
      let merged : FileRow :=
        { f with content_type := ctype, size := size, checksum_md5 := md5,
                 checksum_crc32c := crc, status := "processing" }
      let files2 := st.files.map (fun g => if g.object_key == key then merged else g)
      (merged, { st with files := files2 })

/-! ## Finalize Event Processor (`app/services/gcs_finalize.py`) -/

/-- The function `_detect_job_topic` from `gcs_finalize.py`, verbatim branch order. -/
def detectJobTopic (content_type : String) : Option String :=
  if content_type == "" then none
  else
    let ct := pyLower content_type
    if pyStartsWith ct "application/pdf" then some "process-pdf"
    else if pyStartsWith ct "video/" then some "process-video"
    else if pyStartsWith ct "image/" then some "process-image"
    else if ct == "text/csv" || ct == "application/csv" then some "process-csv"
    else none

/-- The decoded GCS object-metadata JSON carried by the push body
(`_decode_pubsub_body` output); absent JSON fields are `none`. -/
structure FinalizePayload where
  bucket : Option String
  name : Option String
  contentType : Option String
  size : Option String
  md5Hash : Option String
  crc32c : Option String
  metadata : List (String × String)
deriving DecidableEq, Repr

/-- Errors the finalize handler can raise (both surface as `ValueError` /
`DispatchError` in the source). -/
inductive FinalizeErr where
  | missingFields
  | dispatch
deriving DecidableEq, Repr

/-- Payload of an enqueued processing job, field for field. -/
structure Job where
  uploadId : Option String
  fileId : String
  datastoreId : String
  bucket : String
  objectKey : String
  contentType : String
  size : Int
  receivedAt : Int
deriving DecidableEq, Repr

/-- Result of one finalize run: the store after all mutations performed
before returning or raising, the successfully enqueued jobs (topic and
payload), and the raised error, if any. -/
structure RunOut where
  store : Store
  jobs : List (String × Job)
  err : Option FinalizeErr
deriving DecidableEq, Repr

/-- Step 2 of the handler: mark the session uploaded and link the file
(set-once), exactly when a correlation `uploadId` is truthy. -/
def linkStage (uid : Option String) (row : FileRow) (st : Store) : Store :=
  if truthy uid then
    let u := uid.getD ""
    let stA := markUploaded st u
    if truthy row.upload_id then stA else linkUpload stA row.id u
  else st

/-- The job payload built by the handler, field for field. -/
def mkJob (now : Int) (uid : Option String) (row : FileRow)
    (did bucket key ctype : String) (size : Int) : Job :=
  { uploadId := uid, fileId := row.id, datastoreId := did, bucket := bucket,
    objectKey := key, contentType := ctype, size := size, receivedAt := now }

/-- Step 3 of the handler: route by content type.  A found topic enqueues
(the enqueue function returns `false` when `publish`/`result` raises,
aborting the run before the session is advanced); no topic marks the file
and session ready. -/
def routeStage (enq : String → Job → Bool) (now : Int) (uid : Option String)
    (row : FileRow) (did bucket key ctype : String) (size : Int) (st : Store) : RunOut :=
  match detectJobTopic ctype with
  | some topic =>
      let job := mkJob now uid row did bucket key ctype size
      if enq topic job then
        let st3 := if truthy uid then markProcessing st (uid.getD "") else st
        ⟨st3, [(topic, job)], none⟩
      else
        ⟨st, [], some .dispatch⟩
  | none =>
      let st3 := fileMarkStatus st row.id "ready"
      let st4 := if truthy uid then markReady st3 (uid.getD "") else st3
      ⟨st4, [], none⟩

/-- The effective content type: `payload.get("contentType") or
"application/octet-stream"`. -/
def effContentType (p : FinalizePayload) : String :=
  orDefault p.contentType "application/octet-stream"

/-- The effective size: `int(payload.get("size") or "0")` with the
`try/except` fallback to `0`. -/
def effSize (p : FinalizePayload) : Int :=
  (pyParseInt (orDefault p.size "0")).getD 0

/-- The filename: last path segment of the object key, `"unknown"` when
the key is falsy. -/
def filenameOf (p : FinalizePayload) : String :=
  match p.name with
  | some k => if k == "" then "unknown" else lastSegment k
  | none => "unknown"

/-- Step 1 of the handler: the upsert call with the handler's arguments. -/
def upsertOf (freshId : String) (p : FinalizePayload) (st : Store) : FileRow × Store :=
  createOrUpdateFromFinalize st freshId ((p.metadata.lookup "datastoreId").getD "")
    ((p.bucket).getD "") ((p.name).getD "") (filenameOf p) (effContentType p)
    (effSize p) p.md5Hash p.crc32c (p.metadata.lookup "uploadId")

/-- The handler `handle_gcs_finalize_push` from `gcs_finalize.py`, applied to an
already-decoded payload (`_decode_pubsub_body` raises separately on
malformed envelopes).  `freshId` stands for the file id generated when the
upsert creates a row; `now` is `get_current_epoch()`. -/
def handle_gcs_finalize_push (enq : String → Job → Bool) (now : Int) (freshId : String)
    (p : FinalizePayload) (st : Store) : RunOut :=
  let uid := p.metadata.lookup "uploadId"
  let did := p.metadata.lookup "datastoreId"
  if truthy p.bucket && truthy p.name && truthy did then
    let pr := upsertOf freshId p st
    routeStage enq now uid pr.1 (did.getD "") ((p.bucket).getD "") ((p.name).getD "")
      (effContentType p) (effSize p) (linkStage uid pr.1 pr.2)
  else
    ⟨st, [], some .missingFields⟩

/-! ## Resumable Upload Initiator
(`app/api/handler/create_upload_session_handler.py`) -/

/-- One element of the request `files` list (`FileSpec` DTO). -/
structure FileSpec where
  client_token : Option String
  filename : String
  content_type : Option String
  size_bytes : Option Int
  crc32c : Option String
deriving DecidableEq, Repr

/-- One element of the response `data` list built by `do_process`. -/
structure OutEntry where
  session_id : String
  file_id : String
  upload_id : String
  client_token : Option String
  object_key : String
  upload_url : String
  content_type : String
  suggested_chunk_bytes : Int
deriving DecidableEq, Repr

/-- The batch-level failure raised when GCS refuses an initiation
(`HTTPException(502, ...)` in the source); it carries no per-file data. -/
inductive CreateErr where
  | storageInitiation
deriving DecidableEq, Repr

/-- The sanitized filename of `_object_key_for`:
`(filename or "unnamed").replace(" ", "_")`. -/
def sanitizeName (filename : String) : String :=
  replaceSpace (if filename == "" then "unnamed" else filename)

/-- The method `_object_key_for` from the create handler: join the non-empty parts
`[basePfx, "datastore", d, "session", s, "file", fid, safeName]` with
slashes. -/
def object_key_for (basePfx did sid fid filename : String) : String :=
  joinSlash (([basePfx, "datastore", did, "session", sid, "file", fid,
    sanitizeName filename]).filter (fun p => !(p == "")))

/-- The correlation metadata `do_process` attaches to the storage object
at initiation time (`gcs_metadata` in the source). -/
def gcs_metadata_for (did sid fid : String) : List (String × String) :=
  [("datastoreId", did), ("uploadSessionId", sid), ("fileId", fid)]

/-- The signature of `_initiate_resumable` as `do_process` uses it:
bucket, object key, content type, size hint and metadata map.  `some url`
is a successful initiation (201 with a Location header); `none` is the
`StorageInitiationError` path (non-success status or missing header). -/
def InitiateFn : Type :=
  String → String → String → Option Int → List (String × String) → Option String

/-- The file row `do_process` persists for one spec (status `authorized`,
linked to the batch session, sized `size_bytes or 0`). -/
def mkFileRow (bucketName did sid basePfx : String) (spec : FileSpec) (fid : String) : FileRow :=
  { id := fid, datastore_id := did, upload_id := some sid, bucket := bucketName,
    storage_provider := "gcs",
    object_key := object_key_for basePfx did sid fid spec.filename,
    filename := spec.filename,
    content_type := orDefault spec.content_type "application/octet-stream",
    size := spec.size_bytes.getD 0, checksum_md5 := none, checksum_crc32c := none,
    status := "authorized" }

/-- The per-file loop of `do_process`: persist the File row, then call the
storage backend; a failed initiation propagates immediately (the rows
persisted so far, the failing file included, stay in the store). -/
def processFiles (initiate : InitiateFn) (basePfx bucketName did sid : String) :
    List (FileSpec × String) → Store → Store × Except CreateErr (List OutEntry)
  | [], st => (st, .ok [])
  | (spec, fid) :: rest, st =>
      let ctype := orDefault spec.content_type "application/octet-stream"
      let row := mkFileRow bucketName did sid basePfx spec fid
      let st1 := { st with files := st.files ++ [row] }
      match initiate bucketName row.object_key ctype spec.size_bytes
        (gcs_metadata_for did sid fid) with
      | none => (st1, .error .storageInitiation)
      | some url =>
          match processFiles initiate basePfx bucketName did sid rest st1 with
          | (st2, .error e) => (st2, .error e)
          | (st2, .ok outs) =>
              let entry : OutEntry :=
                { session_id := sid, file_id := fid, upload_id := sid,
                  client_token := spec.client_token, object_key := row.object_key,
                  upload_url := url, content_type := ctype,
                  suggested_chunk_bytes := 8 * 1024 * 1024 }
              (st2, .ok (entry :: outs))

/-- The file rows a batch persists, one per (spec, id) pair in order. -/
def rowsFor (bucketName did sid basePfx : String) (pairs : List (FileSpec × String)) : List FileRow :=
  pairs.map (fun pr => mkFileRow bucketName did sid basePfx pr.1 pr.2)

/-- The method `do_process` from the create handler: persist one UploadSession row
with status `authorized`, then run the per-file loop.  `sid` stands for
`generate_id("UPLD")` and `fileIds` for the per-file generated ids (the
id generator lives in `platform_common`; spec 4.1 models it as
collision-free). -/
def do_process (initiate : InitiateFn) (basePfx bucketName did : String)
    (tags : List String) (files : List FileSpec) (sid : String)
    (fileIds : List String) (st : Store) : Store × Except CreateErr (List OutEntry) :=
  let srow : SessionRow :=
    { id := sid, datastore_id := did, tags := tags, status := "authorized" }
  let st1 := { st with sessions := st.sessions ++ [srow] }
  processFiles initiate basePfx bucketName did sid (files.zip fileIds) st1

/-! ## Spec-side definitions (for refinement comparison only)

These two follow the words of the spec, not the source, and exist solely
to compare claim C7 against the code key derivation. -/

/-- Written from the words of spec 4.1: sanitize by replacing all
whitespace (with underscores, as the code does for spaces) and stripping
path separators. -/
def specSanitize (filename : String) : String :=
  ⟨((if filename == "" then "unnamed" else filename).data.filter
      (fun c => !(c == '/') && !(c == '\\'))).map
    (fun c => if c.isWhitespace then '_' else c)⟩

/-- Written from the words of spec 6: the object key layout
`basePfx/datastore/<d>/session/<s>/file/<f>/<sanitizedFilename>` with the
spec sanitizer and empty segments omitted. -/
def specObjectKey (basePfx did sid fid filename : String) : String :=
  joinSlash (([basePfx, "datastore", did, "session", sid, "file", fid,
    specSanitize filename]).filter (fun p => !(p == "")))

/-! ## Concrete fixtures used by the closed theorems below -/

/-- An enqueue function whose publish always confirms. -/
def enqOk : String → Job → Bool := fun _ _ => true

/-- An enqueue function whose publish always raises. -/
def enqFail : String → Job → Bool := fun _ _ => false

/-- A store holding one authorized session `U1`, as the Initiator creates
it. -/
def st0 : Store := ⟨[⟨"U1", "ds1", [], "authorized"⟩], []⟩

/-- A PDF finalize payload carrying the correlation keys the finalize
handler reads. -/
def pPdf : FinalizePayload :=
  ⟨some "b", some "k/a.pdf", some "application/pdf", some "42", none, none,
    [("uploadId", "U1"), ("datastoreId", "ds1")]⟩

/-- The same payload with an unparseable size. -/
def pBadSize : FinalizePayload := { pPdf with size := some "abc" }

/-- A payload with no content type (defaults to octet-stream, no topic). -/
def pOct : FinalizePayload :=
  ⟨some "b", some "k2", none, none, none, none,
    [("uploadId", "U1"), ("datastoreId", "ds1")]⟩

/-- The store after processing `pOct` once: file `k2` and session `U1`
are both ready. -/
def stReady : Store := (handle_gcs_finalize_push enqOk 0 "F1" pOct st0).store

/-- A later notification for the same object key with a PDF content
type. -/
def pOctPdf : FinalizePayload := { pOct with contentType := some "application/pdf" }

/-- A finalize payload carrying exactly the metadata map the Initiator
attaches at initiation time. -/
def pInit : FinalizePayload :=
  ⟨some "b", some "k3", some "application/pdf", some "1", none, none,
    gcs_metadata_for "ds1" "U1" "F9"⟩

/-- A payload with no bucket. -/
def pMissing : FinalizePayload :=
  ⟨none, some "k4", some "application/pdf", none, none, none,
    [("uploadId", "U1"), ("datastoreId", "ds1")]⟩

/-- Two file specs for batch examples. -/
def specA : FileSpec := ⟨none, "a.pdf", some "application/pdf", some 10, none⟩

def specB : FileSpec := ⟨none, "b.png", some "image/png", none, none⟩

/-- An initiation backend that always succeeds. -/
def initOk : InitiateFn := fun _ _ _ _ _ => some "https://upload.example/u"

/-- An initiation backend that rejects the second file of the example
batch (its key names file id `F2`) and accepts the rest. -/
def initFailB : InitiateFn := fun _ key _ _ _ =>
  if pyStartsWith key "raw/datastore/ds1/session/S1/file/F2" then none
  else some "https://upload.example/u"

deriving instance DecidableEq for Except

/-! ## Generic helper lemmas -/

/-- A `find?` commutes with a map that does not change the predicate. -/
theorem find?_map_pred {α : Type} (l : List α) (u : α → α) (p : α → Bool)
    (h : ∀ a, p (u a) = p a) : (l.map u).find? p = (l.find? p).map u := by
  induction l with
  | nil => rfl
  | cons a t ih =>
      simp only [List.map_cons, List.find?_cons]
      rw [h a]
      cases hp : p a <;> simp [hp, ih]

/-- String append is left-cancellative. -/
theorem str_append_left_cancel {a b c : String} (h : a ++ b = a ++ c) : b = c := by
  apply String.ext
  have h2 := congrArg String.data h
  simp only [String.data_append] at h2
  exact List.append_cancel_left h2

/-- Splitting at the first slash is unambiguous when neither left part
contains a slash. -/
theorem slash_split : ∀ (a c b d : List Char), '/' ∉ a → '/' ∉ c →
    a ++ '/' :: b = c ++ '/' :: d → a = c ∧ b = d := by
  intro a
  induction a with
  | nil =>
      intro c b d _ hc h
      cases c with
      | nil => simpa using h
      | cons x c2 =>
          simp only [List.nil_append, List.cons_append, List.cons.injEq] at h
          exact absurd (h.1 ▸ List.mem_cons_self x c2) hc
  | cons x a2 ih =>
      intro c b d ha hc h
      cases c with
      | nil =>
          simp only [List.cons_append, List.nil_append, List.cons.injEq] at h
          exact absurd (h.1 ▸ List.mem_cons_self x a2) ha
      | cons y c2 =>
          simp only [List.cons_append, List.cons.injEq] at h
          have ha2 : '/' ∉ a2 := fun hm => ha (List.mem_cons_of_mem x hm)
          have hc2 : '/' ∉ c2 := fun hm => hc (List.mem_cons_of_mem y hm)
          obtain ⟨h1, h2⟩ := ih c2 b d ha2 hc2 h.2
          exact ⟨by rw [h.1, h1], h2⟩

/-- A slash-join of a non-empty list extended by two segments. -/
theorem joinSlash_append2 (xs : List String) (a b : String) (hxs : xs ≠ []) :
    joinSlash (xs ++ [a, b]) = joinSlash xs ++ ("/" ++ (a ++ ("/" ++ b))) := by
  induction xs with
  | nil => exact absurd rfl hxs
  | cons x t ih =>
      cases t with
      | nil => simp [joinSlash, String.append_assoc]
      | cons y t2 =>
          calc joinSlash ((x :: y :: t2) ++ [a, b])
              = x ++ "/" ++ joinSlash ((y :: t2) ++ [a, b]) := rfl
            _ = x ++ "/" ++ (joinSlash (y :: t2) ++ ("/" ++ (a ++ ("/" ++ b)))) := by
                  rw [ih (by simp)]
            _ = (x ++ "/" ++ joinSlash (y :: t2)) ++ ("/" ++ (a ++ ("/" ++ b))) :=
                  (String.append_assoc (x ++ "/") (joinSlash (y :: t2))
                    ("/" ++ (a ++ ("/" ++ b)))).symm
            _ = joinSlash (x :: y :: t2) ++ ("/" ++ (a ++ ("/" ++ b))) := rfl

/-- The sanitized filename is never empty. -/
theorem sanitizeName_ne_empty (name : String) : (sanitizeName name == "") = false := by
  rw [beq_eq_false_iff_ne]
  intro heq
  have hd := congrArg String.data heq
  unfold sanitizeName replaceSpace at hd
  simp only [List.map_eq_nil_iff] at hd
  by_cases hn : (name == "") = true
  · rw [if_pos hn] at hd
    exact absurd hd (by decide)
  · rw [if_neg (by simp [hn])] at hd
    have : name = "" := String.ext hd
    rw [this] at hn
    exact hn (by decide)

/-! ## Store-operation lemmas -/

theorem updSession_files (st : Store) (sid : String) (u : SessionRow → SessionRow) :
    (updSession st sid u).files = st.files := rfl

theorem updFile_sessions (st : Store) (fid : String) (u : FileRow → FileRow) :
    (updFile st fid u).sessions = st.sessions := rfl

/-- Session status only depends on the session list. -/
theorem sessionStatus_congr {st1 st2 : Store} (h : st1.sessions = st2.sessions)
    (t : String) : sessionStatus st1 t = sessionStatus st2 t := by
  unfold sessionStatus; rw [h]

/-- Characterization of a session lookup through an id-preserving update. -/
theorem sessionStatus_updSession (st : Store) (sid t : String) (u : SessionRow → SessionRow)
    (hu : ∀ s, (u s).id = s.id) :
    sessionStatus (updSession st sid u) t =
      (st.sessions.find? (fun s => s.id == t)).map
        (fun s => if s.id == sid then (u s).status else s.status) := by
  unfold sessionStatus updSession
  rw [find?_map_pred st.sessions _ _ (fun a => by by_cases hc : (a.id == sid) = true <;> simp [hc, hu])]
  cases st.sessions.find? (fun s => s.id == t) with
  | none => rfl
  | some s =>
      simp only [Option.map_some']
      congr 1
      split <;> rfl

theorem markUploaded_post {st : Store} {uid t x : String}
    (h : sessionStatus (markUploaded st uid) t = some x) :
    x = "uploaded" ∨ sessionStatus st t = some x := by
  unfold markUploaded at h
  rw [sessionStatus_updSession st uid t _ (fun s => by split <;> rfl)] at h
  unfold sessionStatus
  cases hf : st.sessions.find? (fun s => s.id == t) with
  | none => rw [hf] at h; simp at h
  | some s =>
      rw [hf] at h
      simp only [Option.map_some', Option.some.injEq] at h
      split at h
      · split at h
        · exact Or.inl h.symm
        · exact Or.inr (by simp [h])
      · exact Or.inr (by simp [h])

theorem markUploaded_ready {st : Store} {uid t : String}
    (h : sessionStatus st t = some "ready") :
    sessionStatus (markUploaded st uid) t = some "ready" := by
  unfold markUploaded
  rw [sessionStatus_updSession st uid t _ (fun s => by split <;> rfl)]
  unfold sessionStatus at h
  cases hf : st.sessions.find? (fun s => s.id == t) with
  | none => rw [hf] at h; simp at h
  | some s =>
      rw [hf] at h
      simp only [Option.map_some', Option.some.injEq] at h
      simp only [Option.map_some', Option.some.injEq]
      split
      · rw [if_neg (by rw [h]; decide)]
        exact h
      · exact h

theorem markUploaded_isSome (st : Store) (uid t : String) :
    (sessionStatus (markUploaded st uid) t).isSome = (sessionStatus st t).isSome := by
  unfold markUploaded
  rw [sessionStatus_updSession st uid t _ (fun s => by split <;> rfl)]
  unfold sessionStatus
  cases st.sessions.find? (fun s => s.id == t) <;> rfl

theorem markProcessing_post {st : Store} {uid t x : String}
    (h : sessionStatus (markProcessing st uid) t = some x) :
    x = "processing" ∨ sessionStatus st t = some x := by
  unfold markProcessing at h
  rw [sessionStatus_updSession st uid t (fun s => { s with status := "processing" })
    (fun _ => rfl)] at h
  unfold sessionStatus
  cases hf : st.sessions.find? (fun s => s.id == t) with
  | none => rw [hf] at h; simp at h
  | some s =>
      rw [hf] at h
      simp only [Option.map_some', Option.some.injEq] at h
      split at h
      · exact Or.inl h.symm
      · exact Or.inr (by simp [h])

theorem markReady_post {st : Store} {uid t x : String}
    (h : sessionStatus (markReady st uid) t = some x) :
    x = "ready" ∨ sessionStatus st t = some x := by
  unfold markReady at h
  rw [sessionStatus_updSession st uid t (fun s => { s with status := "ready" })
    (fun _ => rfl)] at h
  unfold sessionStatus
  cases hf : st.sessions.find? (fun s => s.id == t) with
  | none => rw [hf] at h; simp at h
  | some s =>
      rw [hf] at h
      simp only [Option.map_some', Option.some.injEq] at h
      split at h
      · exact Or.inl h.symm
      · exact Or.inr (by simp [h])

theorem markReady_ready {st : Store} {uid t : String}
    (h : sessionStatus st t = some "ready") :
    sessionStatus (markReady st uid) t = some "ready" := by
  unfold markReady
  rw [sessionStatus_updSession st uid t (fun s => { s with status := "ready" })
    (fun _ => rfl)]
  unfold sessionStatus at h
  cases hf : st.sessions.find? (fun s => s.id == t) with
  | none => rw [hf] at h; simp at h
  | some s =>
      rw [hf] at h
      simp only [Option.map_some', Option.some.injEq] at h
      simp only [Option.map_some', Option.some.injEq]
      split <;> simp [h]

theorem markReady_self {st : Store} {uid : String}
    (h : (sessionStatus st uid).isSome = true) :
    sessionStatus (markReady st uid) uid = some "ready" := by
  unfold markReady
  rw [sessionStatus_updSession st uid uid (fun s => { s with status := "ready" })
    (fun _ => rfl)]
  unfold sessionStatus at h
  cases hf : st.sessions.find? (fun s => s.id == uid) with
  | none => rw [hf] at h; simp at h
  | some s =>
      have hp := List.find?_some hf
      have he : s.id = uid := eq_of_beq hp
      simp [he]

/-- Characterization of a file lookup through a key-preserving update. -/
theorem filesFind?_updFile (st : Store) (fid k : String) (u : FileRow → FileRow)
    (hu : ∀ f, (u f).object_key = f.object_key) :
    (updFile st fid u).files.find? (fun f => f.object_key == k) =
      (st.files.find? (fun f => f.object_key == k)).map
        (fun f => if f.id == fid then u f else f) := by
  unfold updFile
  exact find?_map_pred st.files _ _
    (fun a => by by_cases hc : (a.id == fid) = true <;> simp [hc, hu])

theorem upsert_sessions (st : Store) (freshId did bucket key filename ctype : String)
    (size : Int) (md5 crc : Option String) (uid : Option String) :
    (createOrUpdateFromFinalize st freshId did bucket key filename ctype size md5 crc uid).2.sessions
      = st.sessions := by
  unfold createOrUpdateFromFinalize
  cases st.files.find? (fun f => f.object_key == key) <;> rfl

theorem upsert_row_status (st : Store) (freshId did bucket key filename ctype : String)
    (size : Int) (md5 crc : Option String) (uid : Option String) :
    (createOrUpdateFromFinalize st freshId did bucket key filename ctype size md5 crc uid).1.status
      = "processing" := by
  unfold createOrUpdateFromFinalize
  cases st.files.find? (fun f => f.object_key == key) <;> rfl

theorem upsert_row_size (st : Store) (freshId did bucket key filename ctype : String)
    (size : Int) (md5 crc : Option String) (uid : Option String) :
    (createOrUpdateFromFinalize st freshId did bucket key filename ctype size md5 crc uid).1.size
      = size := by
  unfold createOrUpdateFromFinalize
  cases st.files.find? (fun f => f.object_key == key) <;> rfl

/-- After the upsert, the first row at the payload key is the returned row. -/
theorem upsert_find_self (st : Store) (freshId did bucket key filename ctype : String)
    (size : Int) (md5 crc : Option String) (uid : Option String) :
    (createOrUpdateFromFinalize st freshId did bucket key filename ctype size md5 crc uid).2.files.find?
        (fun f => f.object_key == key)
      = some (createOrUpdateFromFinalize st freshId did bucket key filename ctype size md5 crc uid).1 := by
  unfold createOrUpdateFromFinalize
  cases hf : st.files.find? (fun f => f.object_key == key) with
  | none =>
      simp only [List.find?_append, hf, Option.none_or]
      simp [List.find?_cons]
  | some f =>
      have hp := List.find?_some hf
      have he : f.object_key = key := eq_of_beq hp
      rw [find?_map_pred st.files _ _ (fun a => by
        by_cases hc : (a.object_key == key) = true
        · have ha : a.object_key = key := eq_of_beq hc
          simp [hc, ha, he]
        · simp [hc])]
      rw [hf]
      simp only [Option.map_some']
      rw [if_pos hp]

/-- After the upsert, a row found at any key is either the old row or the
returned row. -/
theorem upsert_find_other (st : Store) (freshId did bucket key filename ctype : String)
    (size : Int) (md5 crc : Option String) (uid : Option String) (k0 : String) (f0 : FileRow)
    (hf0 : st.files.find? (fun f => f.object_key == k0) = some f0) :
    (createOrUpdateFromFinalize st freshId did bucket key filename ctype size md5 crc uid).2.files.find?
        (fun f => f.object_key == k0) = some f0 ∨
    (createOrUpdateFromFinalize st freshId did bucket key filename ctype size md5 crc uid).2.files.find?
        (fun f => f.object_key == k0)
      = some (createOrUpdateFromFinalize st freshId did bucket key filename ctype size md5 crc uid).1 := by
  unfold createOrUpdateFromFinalize
  cases hf : st.files.find? (fun f => f.object_key == key) with
  | none =>
      left
      simp [List.find?_append, hf0]
  | some f =>
      have hp := List.find?_some hf
      have he : f.object_key = key := eq_of_beq hp
      rw [find?_map_pred st.files _ _ (fun a => by
        by_cases hc : (a.object_key == key) = true
        · have ha : a.object_key = key := eq_of_beq hc
          simp [hc, ha, he]
        · simp [hc])]
      rw [hf0]
      by_cases hc : (f0.object_key == key) = true
      · right
        simp only [Option.map_some']
        rw [if_pos hc]
      · left
        simp only [Option.map_some']
        rw [if_neg hc]

/-- The link stage leaves the session list as `markUploaded` leaves it (or
untouched when there is no truthy correlation id). -/
theorem linkStage_sessions (uid : Option String) (row : FileRow) (st : Store) :
    (linkStage uid row st).sessions =
      (if truthy uid then markUploaded st (uid.getD "") else st).sessions := by
  unfold linkStage
  split
  · split
    · rfl
    · rfl
  · rfl

/-- The link stage preserves id, status and size of the row found at any
key (it only ever touches `upload_id`). -/
theorem linkStage_find_triple (uid : Option String) (row : FileRow) (st : Store) (k : String) :
    ((linkStage uid row st).files.find? (fun f => f.object_key == k)).map
        (fun f => (f.id, f.status, f.size)) =
      (st.files.find? (fun f => f.object_key == k)).map
        (fun f => (f.id, f.status, f.size)) := by
  unfold linkStage
  split
  · split
    · rfl
    · unfold linkUpload
      rw [filesFind?_updFile (markUploaded st (uid.getD "")) row.id k
          (fun f => { f with upload_id := some (uid.getD "") }) (fun f => rfl)]
      rw [show (markUploaded st (uid.getD "")).files = st.files from rfl]
      cases st.files.find? (fun f => f.object_key == k) with
      | none => rfl
      | some f =>
          simp only [Option.map_some']
          split <;> rfl
  · rfl

/-- The operation `fileMarkStatus` writes the given status on matching ids and keeps the
rest, preserving key and size. -/
theorem fileMarkStatus_find (st : Store) (fid stat k : String) :
    (fileMarkStatus st fid stat).files.find? (fun f => f.object_key == k) =
      (st.files.find? (fun f => f.object_key == k)).map
        (fun f => if f.id == fid then { f with status := stat } else f) := by
  unfold fileMarkStatus
  exact filesFind?_updFile st fid k _ (fun f => rfl)

/-! ## Finalize-handler unfolding lemmas -/

/-- When a required field is falsy, the handler returns the untouched
store and raises the missing-fields error. -/
theorem handle_missing {enq : String → Job → Bool} {now : Int} {freshId : String}
    {p : FinalizePayload} {st : Store}
    (hv : (truthy p.bucket && truthy p.name && truthy (p.metadata.lookup "datastoreId")) = false) :
    handle_gcs_finalize_push enq now freshId p st = ⟨st, [], some .missingFields⟩ := by
  simp [handle_gcs_finalize_push, hv]

/-- When validation passes, the handler is the route stage applied after
the upsert and link stages. -/
theorem handle_main {enq : String → Job → Bool} {now : Int} {freshId : String}
    {p : FinalizePayload} {st : Store}
    (hv : (truthy p.bucket && truthy p.name && truthy (p.metadata.lookup "datastoreId")) = true) :
    handle_gcs_finalize_push enq now freshId p st =
      routeStage enq now (p.metadata.lookup "uploadId") (upsertOf freshId p st).1
        ((p.metadata.lookup "datastoreId").getD "") ((p.bucket).getD "")
        ((p.name).getD "") (effContentType p) (effSize p)
        (linkStage (p.metadata.lookup "uploadId") (upsertOf freshId p st).1
          (upsertOf freshId p st).2) := by
  simp [handle_gcs_finalize_push, hv]

/-! ## Run-level composition lemmas -/

theorem upsertOf_sessions (freshId : String) (p : FinalizePayload) (st : Store) :
    (upsertOf freshId p st).2.sessions = st.sessions :=
  upsert_sessions st freshId ((p.metadata.lookup "datastoreId").getD "")
    ((p.bucket).getD "") ((p.name).getD "") (filenameOf p) (effContentType p)
    (effSize p) p.md5Hash p.crc32c (p.metadata.lookup "uploadId")

theorem upsertOf_status (freshId : String) (p : FinalizePayload) (st : Store) :
    (upsertOf freshId p st).1.status = "processing" :=
  upsert_row_status st freshId ((p.metadata.lookup "datastoreId").getD "")
    ((p.bucket).getD "") ((p.name).getD "") (filenameOf p) (effContentType p)
    (effSize p) p.md5Hash p.crc32c (p.metadata.lookup "uploadId")

theorem upsertOf_size (freshId : String) (p : FinalizePayload) (st : Store) :
    (upsertOf freshId p st).1.size = effSize p :=
  upsert_row_size st freshId ((p.metadata.lookup "datastoreId").getD "")
    ((p.bucket).getD "") ((p.name).getD "") (filenameOf p) (effContentType p)
    (effSize p) p.md5Hash p.crc32c (p.metadata.lookup "uploadId")

theorem upsertOf_find_self (freshId : String) (p : FinalizePayload) (st : Store) :
    (upsertOf freshId p st).2.files.find? (fun f => f.object_key == (p.name).getD "")
      = some (upsertOf freshId p st).1 :=
  upsert_find_self st freshId ((p.metadata.lookup "datastoreId").getD "")
    ((p.bucket).getD "") ((p.name).getD "") (filenameOf p) (effContentType p)
    (effSize p) p.md5Hash p.crc32c (p.metadata.lookup "uploadId")

theorem upsertOf_find_other (freshId : String) (p : FinalizePayload) (st : Store)
    (k0 : String) (f0 : FileRow)
    (hf0 : st.files.find? (fun f => f.object_key == k0) = some f0) :
    (upsertOf freshId p st).2.files.find? (fun f => f.object_key == k0) = some f0 ∨
    (upsertOf freshId p st).2.files.find? (fun f => f.object_key == k0)
      = some (upsertOf freshId p st).1 :=
  upsert_find_other st freshId ((p.metadata.lookup "datastoreId").getD "")
    ((p.bucket).getD "") ((p.name).getD "") (filenameOf p) (effContentType p)
    (effSize p) p.md5Hash p.crc32c (p.metadata.lookup "uploadId") k0 f0 hf0

/-- The session status after the link stage is `uploaded` or an original
status. -/
theorem linkStage_session_post {uid : Option String} {row : FileRow} {st : Store}
    {t y : String} (h : sessionStatus (linkStage uid row st) t = some y) :
    y = "uploaded" ∨ sessionStatus st t = some y := by
  rw [sessionStatus_congr (linkStage_sessions uid row st) t] at h
  split at h
  · exact markUploaded_post h
  · exact Or.inr h

/-- The link stage preserves `ready` sessions. -/
theorem linkStage_session_ready {uid : Option String} {row : FileRow} {st : Store}
    {t : String} (h : sessionStatus st t = some "ready") :
    sessionStatus (linkStage uid row st) t = some "ready" := by
  rw [sessionStatus_congr (linkStage_sessions uid row st) t]
  split
  · exact markUploaded_ready h
  · exact h

/-- The link stage preserves session existence. -/
theorem linkStage_session_isSome (uid : Option String) (row : FileRow) (st : Store)
    (t : String) :
    (sessionStatus (linkStage uid row st) t).isSome = (sessionStatus st t).isSome := by
  rw [sessionStatus_congr (linkStage_sessions uid row st) t]
  split
  · exact markUploaded_isSome st (uid.getD "") t
  · rfl

/-- Sessions after the upsert-plus-link stages: `uploaded` or original. -/
theorem stage12_session_post {freshId : String} {p : FinalizePayload} {st : Store}
    {t y : String}
    (h : sessionStatus (linkStage (p.metadata.lookup "uploadId") (upsertOf freshId p st).1
        (upsertOf freshId p st).2) t = some y) :
    y = "uploaded" ∨ sessionStatus st t = some y := by
  rcases linkStage_session_post h with h1 | h1
  · exact Or.inl h1
  · right
    rw [sessionStatus_congr (upsertOf_sessions freshId p st) t] at h1
    exact h1

/-- Ready sessions survive the upsert-plus-link stages. -/
theorem stage12_session_ready {freshId : String} {p : FinalizePayload} {st : Store}
    {t : String} (h : sessionStatus st t = some "ready") :
    sessionStatus (linkStage (p.metadata.lookup "uploadId") (upsertOf freshId p st).1
        (upsertOf freshId p st).2) t = some "ready" := by
  apply linkStage_session_ready
  rw [sessionStatus_congr (upsertOf_sessions freshId p st) t]
  exact h

/-- A validation failure, stated on the Bool guard. -/
theorem guard_false_of_not_true {b : Bool} (h : ¬ b = true) : b = false := by
  cases b
  · rfl
  · exact absurd rfl h

/-- Any session status after a finalize run is one of the written statuses
or the original one. -/
theorem run_session_post {enq : String → Job → Bool} {now : Int} {freshId : String}
    {p : FinalizePayload} {st : Store} {t x : String}
    (h : sessionStatus (handle_gcs_finalize_push enq now freshId p st).store t = some x) :
    x = "uploaded" ∨ x = "processing" ∨ x = "ready" ∨ sessionStatus st t = some x := by
  by_cases hv : (truthy p.bucket && truthy p.name && truthy (p.metadata.lookup "datastoreId")) = true
  · rw [handle_main hv] at h
    simp only [routeStage] at h
    split at h
    · split at h
      · split at h
        · rcases markProcessing_post h with h1 | h1
          · exact Or.inr (Or.inl h1)
          · rcases stage12_session_post h1 with h2 | h2
            · exact Or.inl h2
            · exact Or.inr (Or.inr (Or.inr h2))
        · rcases stage12_session_post h with h2 | h2
          · exact Or.inl h2
          · exact Or.inr (Or.inr (Or.inr h2))
      · rcases stage12_session_post h with h2 | h2
        · exact Or.inl h2
        · exact Or.inr (Or.inr (Or.inr h2))
    · split at h
      · rcases markReady_post h with h1 | h1
        · exact Or.inr (Or.inr (Or.inl h1))
        · rcases stage12_session_post h1 with h2 | h2
          · exact Or.inl h2
          · exact Or.inr (Or.inr (Or.inr h2))
      · rcases stage12_session_post h with h2 | h2
        · exact Or.inl h2
        · exact Or.inr (Or.inr (Or.inr h2))
  · rw [handle_missing (guard_false_of_not_true hv)] at h
    exact Or.inr (Or.inr (Or.inr h))

/-- With no routing topic, a ready session stays ready through a run. -/
theorem run_session_ready_noTopic {enq : String → Job → Bool} {now : Int}
    {freshId : String} {p : FinalizePayload} {st : Store} {t : String}
    (hd : detectJobTopic (effContentType p) = none)
    (h : sessionStatus st t = some "ready") :
    sessionStatus (handle_gcs_finalize_push enq now freshId p st).store t
      = some "ready" := by
  by_cases hv : (truthy p.bucket && truthy p.name && truthy (p.metadata.lookup "datastoreId")) = true
  · rw [handle_main hv]
    simp only [routeStage, hd]
    have h2 := @stage12_session_ready freshId p st t h
    split
    · exact markReady_ready h2
    · exact h2
  · rw [handle_missing (guard_false_of_not_true hv)]
    exact h

/-- With no routing topic and a truthy correlation id naming an existing
session, the run marks that session ready. -/
theorem run_session_self_ready_noTopic {enq : String → Job → Bool} {now : Int}
    {freshId : String} {p : FinalizePayload} {st : Store} {sid : String}
    (hv : (truthy p.bucket && truthy p.name && truthy (p.metadata.lookup "datastoreId")) = true)
    (hd : detectJobTopic (effContentType p) = none)
    (hu : p.metadata.lookup "uploadId" = some sid)
    (hne : (sid == "") = false)
    (hex : (sessionStatus st sid).isSome = true) :
    sessionStatus (handle_gcs_finalize_push enq now freshId p st).store sid
      = some "ready" := by
  rw [handle_main hv]
  simp only [routeStage, hd]
  have htr : truthy (p.metadata.lookup "uploadId") = true := by
    rw [hu]; simp [truthy, hne]
  rw [if_pos htr]
  have hgetd : (p.metadata.lookup "uploadId").getD "" = sid := by rw [hu]; rfl
  rw [hgetd]
  have h1 := linkStage_session_isSome (p.metadata.lookup "uploadId")
    (upsertOf freshId p st).1 (upsertOf freshId p st).2 sid
  rw [sessionStatus_congr (upsertOf_sessions freshId p st) sid] at h1
  exact markReady_self (h1.trans hex)

/-- The row found at any key after a run: it exists whenever it existed
before, and its status is the original, `processing`, or `ready`. -/
theorem run_file_post {enq : String → Job → Bool} {now : Int} {freshId : String}
    {p : FinalizePayload} {st : Store} {k0 : String} {f0 : FileRow}
    (hf0 : st.files.find? (fun f => f.object_key == k0) = some f0) :
    ∃ f2, (handle_gcs_finalize_push enq now freshId p st).store.files.find?
        (fun f => f.object_key == k0) = some f2 ∧
      (f2.status = f0.status ∨ f2.status = "processing" ∨ f2.status = "ready") := by
  by_cases hv : (truthy p.bucket && truthy p.name && truthy (p.metadata.lookup "datastoreId")) = true
  · rw [handle_main hv]
    have hup := upsertOf_find_other freshId p st k0 f0 hf0
    have htr := linkStage_find_triple (p.metadata.lookup "uploadId")
      (upsertOf freshId p st).1 (upsertOf freshId p st).2 k0
    have hst1 : ∃ f1, (upsertOf freshId p st).2.files.find? (fun f => f.object_key == k0)
        = some f1 ∧ (f1.status = f0.status ∨ f1.status = "processing") := by
      rcases hup with hup | hup
      · exact ⟨f0, hup, Or.inl rfl⟩
      · exact ⟨(upsertOf freshId p st).1, hup, Or.inr (upsertOf_status freshId p st)⟩
    rcases hst1 with ⟨f1, hfind1, hstat1⟩
    rw [hfind1] at htr
    simp only [Option.map_some'] at htr
    rcases Option.map_eq_some'.mp htr with ⟨f2, hfind2, htrip⟩
    have hid2 : f2.id = f1.id := by
      have := congrArg Prod.fst htrip
      simpa using this
    have hstat2 : f2.status = f1.status := by
      have := congrArg (fun q => q.2.1) htrip
      simpa using this
    simp only [routeStage]
    split
    · split
      · split
        · exact ⟨f2, hfind2, by rw [hstat2]; exact hstat1.imp id Or.inl⟩
        · exact ⟨f2, hfind2, by rw [hstat2]; exact hstat1.imp id Or.inl⟩
      · exact ⟨f2, hfind2, by rw [hstat2]; exact hstat1.imp id Or.inl⟩
    · have hfind3 := fileMarkStatus_find
        (linkStage (p.metadata.lookup "uploadId") (upsertOf freshId p st).1
          (upsertOf freshId p st).2) (upsertOf freshId p st).1.id "ready" k0
      rw [hfind2] at hfind3
      simp only [Option.map_some'] at hfind3
      split
      · refine ⟨_, hfind3, ?_⟩
        split
        · exact Or.inr (Or.inr rfl)
        · rw [hstat2]; exact hstat1.imp id Or.inl
      · refine ⟨_, hfind3, ?_⟩
        split
        · exact Or.inr (Or.inr rfl)
        · rw [hstat2]; exact hstat1.imp id Or.inl
  · rw [handle_missing (guard_false_of_not_true hv)]
    exact ⟨f0, hf0, Or.inl rfl⟩

/-- With no routing topic, a ready file stays ready through a run. -/
theorem run_file_ready_noTopic {enq : String → Job → Bool} {now : Int}
    {freshId : String} {p : FinalizePayload} {st : Store} {k0 : String} {f0 : FileRow}
    (hd : detectJobTopic (effContentType p) = none)
    (hf0 : st.files.find? (fun f => f.object_key == k0) = some f0)
    (hready : f0.status = "ready") :
    fileStatus (handle_gcs_finalize_push enq now freshId p st).store k0
      = some "ready" := by
  by_cases hv : (truthy p.bucket && truthy p.name && truthy (p.metadata.lookup "datastoreId")) = true
  · rw [handle_main hv]
    have hup := upsertOf_find_other freshId p st k0 f0 hf0
    have htr := linkStage_find_triple (p.metadata.lookup "uploadId")
      (upsertOf freshId p st).1 (upsertOf freshId p st).2 k0
    have hst1 : ∃ f1, (upsertOf freshId p st).2.files.find? (fun f => f.object_key == k0)
        = some f1 ∧ (f1.status = "ready" ∨ f1.id = (upsertOf freshId p st).1.id) := by
      rcases hup with hup | hup
      · exact ⟨f0, hup, Or.inl hready⟩
      · exact ⟨(upsertOf freshId p st).1, hup, Or.inr rfl⟩
    rcases hst1 with ⟨f1, hfind1, hcase⟩
    rw [hfind1] at htr
    simp only [Option.map_some'] at htr
    rcases Option.map_eq_some'.mp htr with ⟨f2, hfind2, htrip⟩
    have hid2 : f2.id = f1.id := by
      have := congrArg Prod.fst htrip
      simpa using this
    have hstat2 : f2.status = f1.status := by
      have := congrArg (fun q => q.2.1) htrip
      simpa using this
    simp only [routeStage, hd]
    have hfind3 := fileMarkStatus_find
      (linkStage (p.metadata.lookup "uploadId") (upsertOf freshId p st).1
        (upsertOf freshId p st).2) (upsertOf freshId p st).1.id "ready" k0
    rw [hfind2] at hfind3
    simp only [Option.map_some'] at hfind3
    have hstat3 : (if (f2.id == (upsertOf freshId p st).1.id) = true then
        { f2 with status := "ready" } else f2).status = "ready" := by
      rcases hcase with hc | hc
      · split
        · rfl
        · rw [hstat2, hc]
      · rw [if_pos (by rw [hid2, hc]; exact beq_self_eq_true _)]
    unfold fileStatus
    split
    · rw [show (markReady (fileMarkStatus (linkStage (p.metadata.lookup "uploadId")
          (upsertOf freshId p st).1 (upsertOf freshId p st).2)
          (upsertOf freshId p st).1.id "ready") ((p.metadata.lookup "uploadId").getD "")).files
        = (fileMarkStatus (linkStage (p.metadata.lookup "uploadId")
          (upsertOf freshId p st).1 (upsertOf freshId p st).2)
          (upsertOf freshId p st).1.id "ready").files from rfl, hfind3]
      simp only [Option.map_some']
      rw [hstat3]
    · rw [hfind3]
      simp only [Option.map_some']
      rw [hstat3]
  · rw [handle_missing (guard_false_of_not_true hv)]
    unfold fileStatus
    rw [hf0]
    simp [hready]

/-- With no routing topic, the run leaves the file at the payload key at
status `ready`. -/
theorem run_target_ready_noTopic {enq : String → Job → Bool} {now : Int}
    {freshId : String} {p : FinalizePayload} {st : Store}
    (hv : (truthy p.bucket && truthy p.name && truthy (p.metadata.lookup "datastoreId")) = true)
    (hd : detectJobTopic (effContentType p) = none) :
    fileStatus (handle_gcs_finalize_push enq now freshId p st).store ((p.name).getD "")
      = some "ready" := by
  rw [handle_main hv]
  have htr := linkStage_find_triple (p.metadata.lookup "uploadId")
    (upsertOf freshId p st).1 (upsertOf freshId p st).2 ((p.name).getD "")
  rw [upsertOf_find_self freshId p st] at htr
  simp only [Option.map_some'] at htr
  rcases Option.map_eq_some'.mp htr with ⟨f2, hfind2, htrip⟩
  have hid2 : f2.id = (upsertOf freshId p st).1.id := by
    have := congrArg Prod.fst htrip
    simpa using this
  simp only [routeStage, hd]
  have hfind3 := fileMarkStatus_find
    (linkStage (p.metadata.lookup "uploadId") (upsertOf freshId p st).1
      (upsertOf freshId p st).2) (upsertOf freshId p st).1.id "ready" ((p.name).getD "")
  rw [hfind2] at hfind3
  simp only [Option.map_some'] at hfind3
  have hstat3 : (if (f2.id == (upsertOf freshId p st).1.id) = true then
      { f2 with status := "ready" } else f2).status = "ready" := by
    rw [if_pos (by rw [hid2]; exact beq_self_eq_true _)]
  unfold fileStatus
  split
  · rw [show (markReady (fileMarkStatus (linkStage (p.metadata.lookup "uploadId")
        (upsertOf freshId p st).1 (upsertOf freshId p st).2)
        (upsertOf freshId p st).1.id "ready") ((p.metadata.lookup "uploadId").getD "")).files
      = (fileMarkStatus (linkStage (p.metadata.lookup "uploadId")
        (upsertOf freshId p st).1 (upsertOf freshId p st).2)
        (upsertOf freshId p st).1.id "ready").files from rfl, hfind3]
    simp only [Option.map_some']
    rw [hstat3]
  · rw [hfind3]
    simp only [Option.map_some']
    rw [hstat3]

/-- After any validated run, the file at the payload key carries the
effective size of the payload. -/
theorem run_target_size {enq : String → Job → Bool} {now : Int}
    {freshId : String} {p : FinalizePayload} {st : Store}
    (hv : (truthy p.bucket && truthy p.name && truthy (p.metadata.lookup "datastoreId")) = true) :
    fileSizeAt (handle_gcs_finalize_push enq now freshId p st).store ((p.name).getD "")
      = some (effSize p) := by
  rw [handle_main hv]
  have htr := linkStage_find_triple (p.metadata.lookup "uploadId")
    (upsertOf freshId p st).1 (upsertOf freshId p st).2 ((p.name).getD "")
  rw [upsertOf_find_self freshId p st] at htr
  simp only [Option.map_some'] at htr
  rcases Option.map_eq_some'.mp htr with ⟨f2, hfind2, htrip⟩
  have hsz2 : f2.size = effSize p := by
    have h := congrArg (fun q => q.2.2) htrip
    simp only [] at h
    rw [h, upsertOf_size]
  have hX : ∀ X : Store, X.files = (linkStage (p.metadata.lookup "uploadId")
      (upsertOf freshId p st).1 (upsertOf freshId p st).2).files →
      fileSizeAt X ((p.name).getD "") = some (effSize p) := by
    intro X hXf
    unfold fileSizeAt
    rw [hXf, hfind2]
    simp only [Option.map_some']
    rw [hsz2]
  simp only [routeStage]
  split
  · split
    · dsimp only
      apply hX
      split <;> rfl
    · dsimp only
      apply hX
      rfl
  · have hfind3 := fileMarkStatus_find
      (linkStage (p.metadata.lookup "uploadId") (upsertOf freshId p st).1
        (upsertOf freshId p st).2) (upsertOf freshId p st).1.id "ready" ((p.name).getD "")
    rw [hfind2] at hfind3
    simp only [Option.map_some'] at hfind3
    have hY : ∀ X : Store, X.files = (fileMarkStatus (linkStage (p.metadata.lookup "uploadId")
        (upsertOf freshId p st).1 (upsertOf freshId p st).2)
        (upsertOf freshId p st).1.id "ready").files →
        fileSizeAt X ((p.name).getD "") = some (effSize p) := by
      intro X hXf
      unfold fileSizeAt
      rw [hXf, hfind3]
      simp only [Option.map_some']
      split
      · exact congrArg some hsz2
      · exact congrArg some hsz2
    dsimp only
    apply hY
    split <;> rfl

/-- With no routing topic, a validated run enqueues nothing and succeeds. -/
theorem run_noTopic_out {enq : String → Job → Bool} {now : Int}
    {freshId : String} {p : FinalizePayload} {st : Store}
    (hv : (truthy p.bucket && truthy p.name && truthy (p.metadata.lookup "datastoreId")) = true)
    (hd : detectJobTopic (effContentType p) = none) :
    (handle_gcs_finalize_push enq now freshId p st).jobs = [] ∧
    (handle_gcs_finalize_push enq now freshId p st).err = none := by
  rw [handle_main hv]
  simp only [routeStage, hd]
  exact ⟨by trivial, by trivial⟩

/-- When the routing topic is found but the enqueue call fails, the run
aborts with the dispatch error after only the upsert and link stages. -/
theorem run_dispatch_fail {enq : String → Job → Bool} {now : Int}
    {freshId : String} {p : FinalizePayload} {st : Store} {topic : String}
    (hv : (truthy p.bucket && truthy p.name && truthy (p.metadata.lookup "datastoreId")) = true)
    (ht : detectJobTopic (effContentType p) = some topic)
    (he : ∀ tp j, enq tp j = false) :
    handle_gcs_finalize_push enq now freshId p st =
      ⟨linkStage (p.metadata.lookup "uploadId") (upsertOf freshId p st).1
        (upsertOf freshId p st).2, [], some .dispatch⟩ := by
  rw [handle_main hv]
  simp [routeStage, ht, he]

/-- When every enqueue call succeeds, a validated run succeeds and every
enqueued job carries the effective size. -/
theorem run_enqOk_out {enq : String → Job → Bool} {now : Int}
    {freshId : String} {p : FinalizePayload} {st : Store}
    (hv : (truthy p.bucket && truthy p.name && truthy (p.metadata.lookup "datastoreId")) = true)
    (he : ∀ tp j, enq tp j = true) :
    (handle_gcs_finalize_push enq now freshId p st).err = none ∧
    (∀ tj ∈ (handle_gcs_finalize_push enq now freshId p st).jobs,
      (tj.2).size = effSize p) := by
  rw [handle_main hv]
  simp only [routeStage]
  split
  · rw [he]
    rw [if_pos rfl]
    dsimp only
    refine ⟨rfl, ?_⟩
    intro tj htj
    simp only [List.mem_singleton] at htj
    rw [htj]
    rfl
  · dsimp only
    refine ⟨rfl, ?_⟩
    intro tj htj
    simp at htj

/-! ## Object-key lemmas (Initiator side) -/

/-- With all fixed segments non-empty, the derived key is the plain
slash-separated concatenation. -/
theorem object_key_concat (basePfx did sid fid name : String)
    (hb : (basePfx == "") = false) (hd : (did == "") = false)
    (hs : (sid == "") = false) (hf : (fid == "") = false) :
    object_key_for basePfx did sid fid name =
      basePfx ++ "/" ++ "datastore" ++ "/" ++ did ++ "/" ++ "session" ++ "/" ++ sid
        ++ "/" ++ "file" ++ "/" ++ fid ++ "/" ++ sanitizeName name := by
  have hds : ("datastore" == "") = false := by decide
  have hses : ("session" == "") = false := by decide
  have hfil : ("file" == "") = false := by decide
  simp [object_key_for, List.filter_cons, hb, hd, hs, hf, hds, hses, hfil,
    sanitizeName_ne_empty, joinSlash, String.append_assoc]
  rfl

/-- The derived key with an empty base part omits that segment. -/
theorem object_key_concat_noBase (did sid fid name : String)
    (hd : (did == "") = false) (hs : (sid == "") = false) (hf : (fid == "") = false) :
    object_key_for "" did sid fid name =
      "datastore" ++ "/" ++ did ++ "/" ++ "session" ++ "/" ++ sid
        ++ "/" ++ "file" ++ "/" ++ fid ++ "/" ++ sanitizeName name := by
  have hds : ("datastore" == "") = false := by decide
  have hses : ("session" == "") = false := by decide
  have hfil : ("file" == "") = false := by decide
  simp [object_key_for, List.filter_cons, hd, hs, hf, hds, hses, hfil,
    sanitizeName_ne_empty, joinSlash, String.append_assoc]
  rfl

/-- Distinct slash-free file ids give distinct object keys (all other
parts equal). -/
theorem object_key_inj (basePfx did sid : String) {fid1 fid2 name1 name2 : String}
    (h1 : (fid1 == "") = false) (h1s : '/' ∉ fid1.data)
    (h2 : (fid2 == "") = false) (h2s : '/' ∉ fid2.data)
    (heq : object_key_for basePfx did sid fid1 name1
      = object_key_for basePfx did sid fid2 name2) : fid1 = fid2 := by
  have hfront : ∀ fid name, (fid == "") = false →
      object_key_for basePfx did sid fid name =
        joinSlash (([basePfx, "datastore", did, "session", sid]).filter
            (fun p => !(p == "")) ++ ["file", fid, sanitizeName name]) := by
    intro fid name hf
    unfold object_key_for
    congr 1
    have hfil : ("file" == "") = false := by decide
    rw [show ([basePfx, "datastore", did, "session", sid, "file", fid, sanitizeName name])
        = [basePfx, "datastore", did, "session", sid] ++ ["file", fid, sanitizeName name]
      from rfl]
    rw [List.filter_append]
    congr 1
    simp [List.filter_cons, hf, hfil, sanitizeName_ne_empty]
  rw [hfront fid1 name1 h1, hfront fid2 name2 h2] at heq
  have hne : (([basePfx, "datastore", did, "session", sid]).filter
      (fun p => !(p == "")) ++ ["file"]) ≠ [] := by simp
  have hsplit : ∀ fid name, (([basePfx, "datastore", did, "session", sid]).filter
        (fun p => !(p == "")) ++ ["file", fid, sanitizeName name]) =
      ((([basePfx, "datastore", did, "session", sid]).filter
        (fun p => !(p == "")) ++ ["file"]) ++ [fid, sanitizeName name]) := by
    intro fid name
    simp
  rw [hsplit fid1 name1, hsplit fid2 name2] at heq
  rw [joinSlash_append2 _ _ _ hne, joinSlash_append2 _ _ _ hne] at heq
  have heq2 := str_append_left_cancel heq
  have heqd := congrArg String.data heq2
  have hshape : ∀ fid name : String, ("/" ++ (fid ++ ("/" ++ sanitizeName name))).data
      = '/' :: (fid.data ++ '/' :: (sanitizeName name).data) := by
    intro fid name
    simp [String.data_append]
  rw [hshape fid1 name1, hshape fid2 name2] at heqd
  have h3 := (slash_split fid1.data fid2.data (sanitizeName name1).data
    (sanitizeName name2).data h1s h2s (by injection heqd)).1
  exact String.ext h3

/-- The per-file object keys of a batch are pairwise distinct when the
file ids are distinct, non-empty and slash-free. -/
theorem batch_keys_nodup (basePfx did sid : String) :
    ∀ pairs : List (FileSpec × String),
    (pairs.map Prod.snd).Nodup →
    (∀ pr ∈ pairs, (pr.2 == "") = false ∧ '/' ∉ pr.2.data) →
    (pairs.map (fun pr => object_key_for basePfx did sid pr.2 pr.1.filename)).Nodup := by
  intro pairs
  induction pairs with
  | nil => intro _ _; simp
  | cons hd tl ih =>
      intro hnd hok
      simp only [List.map_cons, List.nodup_cons] at hnd ⊢
      refine ⟨?_, ih hnd.2 (fun pr hpr => hok pr (List.mem_cons_of_mem hd hpr))⟩
      intro hmem
      rcases List.mem_map.mp hmem with ⟨pr, hpr, hkey⟩
      have hhd := hok hd (List.mem_cons_self hd tl)
      have hpr2 := hok pr (List.mem_cons_of_mem hd hpr)
      have : pr.2 = hd.2 :=
        object_key_inj basePfx did sid hpr2.1 hpr2.2 hhd.1 hhd.2 hkey
      exact hnd.1 (this ▸ List.mem_map_of_mem Prod.snd hpr)

/-! ## Batch-creation characterization -/

/-- When every initiation call succeeds, the per-file loop appends exactly
one row per input file, in input order, and returns one output entry per
file. -/
theorem processFiles_success (initiate : InitiateFn) (basePfx bucketName did sid : String)
    (hI : ∀ b k c z m, (initiate b k c z m).isSome = true) :
    ∀ (pairs : List (FileSpec × String)) (st : Store),
    ∃ outs, processFiles initiate basePfx bucketName did sid pairs st =
      ({ st with files := st.files ++ rowsFor bucketName did sid basePfx pairs }, .ok outs) ∧
      outs.length = pairs.length := by
  intro pairs
  induction pairs with
  | nil =>
      intro st
      refine ⟨[], ?_, rfl⟩
      simp [processFiles, rowsFor]
  | cons pr tl ih =>
      obtain ⟨spec, fid⟩ := pr
      intro st
      obtain ⟨outs, hrec, hlen⟩ := ih
        { st with files := st.files ++ [mkFileRow bucketName did sid basePfx spec fid] }
      have hsome := hI bucketName (mkFileRow bucketName did sid basePfx spec fid).object_key
        (orDefault spec.content_type "application/octet-stream") spec.size_bytes
        (gcs_metadata_for did sid fid)
      rcases Option.isSome_iff_exists.mp hsome with ⟨url, hurl⟩
      refine ⟨⟨sid, fid, sid, spec.client_token,
        (mkFileRow bucketName did sid basePfx spec fid).object_key, url,
        orDefault spec.content_type "application/octet-stream",
        8 * 1024 * 1024⟩ :: outs, ?_, by simp [hlen]⟩
      simp only [processFiles]
      rw [hurl]
      dsimp only
      rw [hrec]
      simp [rowsFor, List.append_assoc]

/-- When an initiation call fails, the per-file loop aborts with the
batch-level storage error; the rows for the preceding files and for the
failing file are persisted, the remaining files are not processed, and no
output entries are returned. -/
theorem processFiles_fail (initiate : InitiateFn) (basePfx bucketName did sid : String) :
    ∀ (pre : List (FileSpec × String)) (spec : FileSpec) (fid : String)
      (rest : List (FileSpec × String)) (st : Store),
    (∀ pr ∈ pre, (initiate bucketName
        (mkFileRow bucketName did sid basePfx pr.1 pr.2).object_key
        (orDefault pr.1.content_type "application/octet-stream") pr.1.size_bytes
        (gcs_metadata_for did sid pr.2)).isSome = true) →
    initiate bucketName (mkFileRow bucketName did sid basePfx spec fid).object_key
        (orDefault spec.content_type "application/octet-stream") spec.size_bytes
        (gcs_metadata_for did sid fid) = none →
    processFiles initiate basePfx bucketName did sid (pre ++ (spec, fid) :: rest) st =
      ({ st with files := st.files ++ rowsFor bucketName did sid basePfx (pre ++ [(spec, fid)]) },
        .error .storageInitiation) := by
  intro pre
  induction pre with
  | nil =>
      intro spec fid rest st _ hfail
      simp only [List.nil_append, processFiles]
      rw [hfail]
      simp [rowsFor]
  | cons pr0 tl ih =>
      obtain ⟨s0, f0⟩ := pr0
      intro spec fid rest st hok hfail
      have h0 := hok (s0, f0) (List.mem_cons_self _ _)
      rcases Option.isSome_iff_exists.mp h0 with ⟨url, hurl⟩
      simp only [List.cons_append, processFiles]
      rw [hurl]
      dsimp only
      simp only [List.append_eq]
      rw [ih spec fid rest _ (fun pr hpr => hok pr (List.mem_cons_of_mem _ hpr)) hfail]
      simp [rowsFor, List.append_assoc]

/-! ## Claim theorems -/

/-- C1: the claim says a second run with the same push body after a
successful first run leaves File/Session state identical and enqueues no
additional job.  The state part holds, but the handler has no duplicate
guard: evaluated at a PDF finalize push delivered twice, the first run
succeeds and enqueues one job, the second run leaves the store identical
yet enqueues one more job — the code re-enqueues on duplicate delivery,
against its own "Idempotent handler" docstring and the claim. -/
theorem c1_duplicate_delivery_reenqueues :
    (handle_gcs_finalize_push enqOk 0 "F1" pPdf st0).err = none ∧
    (handle_gcs_finalize_push enqOk 0 "F1" pPdf st0).jobs.length = 1 ∧
    (handle_gcs_finalize_push enqOk 0 "F2" pPdf
        (handle_gcs_finalize_push enqOk 0 "F1" pPdf st0).store).store
      = (handle_gcs_finalize_push enqOk 0 "F1" pPdf st0).store ∧
    (handle_gcs_finalize_push enqOk 0 "F2" pPdf
        (handle_gcs_finalize_push enqOk 0 "F1" pPdf st0).store).jobs.length = 1 := by
  decide

/-- C2 counterexample: the claim says no sequence of finalize
notifications moves a ready File or Session back to processing.  Starting
from a store whose file `k2` and session `U1` are ready (reached by one
octet-stream finalize run), a second notification for the same object key
with a PDF content type moves both back to `processing`. -/
theorem c2_counterexample :
    fileStatus stReady "k2" = some "ready" ∧
    sessionStatus stReady "U1" = some "ready" ∧
    fileStatus (handle_gcs_finalize_push enqOk 0 "F9" pOctPdf stReady).store "k2"
      = some "processing" ∧
    sessionStatus (handle_gcs_finalize_push enqOk 0 "F9" pOctPdf stReady).store "U1"
      = some "processing" := by
  decide

/-- C2 amended: no finalize run ever moves a ready File or Session back
to `authorized`; and a run whose content type routes to no topic
preserves every ready File and Session.  (A run whose content type routes
to a topic may regress the targeted ready File/Session to `processing`,
as the counterexample shows.) -/
theorem c2_amended_monotonicity (enq : String → Job → Bool) (now : Int)
    (freshId : String) (p : FinalizePayload) (st : Store) :
    (∀ k, fileStatus st k = some "ready" →
      fileStatus (handle_gcs_finalize_push enq now freshId p st).store k
        ≠ some "authorized") ∧
    (∀ t, sessionStatus st t = some "ready" →
      sessionStatus (handle_gcs_finalize_push enq now freshId p st).store t
        ≠ some "authorized") ∧
    (detectJobTopic (effContentType p) = none →
      (∀ k, fileStatus st k = some "ready" →
        fileStatus (handle_gcs_finalize_push enq now freshId p st).store k
          = some "ready") ∧
      (∀ t, sessionStatus st t = some "ready" →
        sessionStatus (handle_gcs_finalize_push enq now freshId p st).store t
          = some "ready")) := by
  refine ⟨?_, ?_, ?_⟩
  · intro k hk hcontra
    unfold fileStatus at hk
    rcases Option.map_eq_some'.mp hk with ⟨f0, hf0, hst0⟩
    obtain ⟨f2, hf2, hdisj⟩ := @run_file_post enq now freshId p st k f0 hf0
    unfold fileStatus at hcontra
    rw [hf2] at hcontra
    simp only [Option.map_some', Option.some.injEq] at hcontra
    rcases hdisj with h | h | h
    · rw [hcontra, hst0] at h
      exact absurd h (by decide)
    · rw [hcontra] at h
      exact absurd h (by decide)
    · rw [hcontra] at h
      exact absurd h (by decide)
  · intro t ht hcontra
    rcases run_session_post hcontra with h | h | h | h
    · exact absurd h (by decide)
    · exact absurd h (by decide)
    · exact absurd h (by decide)
    · rw [ht] at h
      simp at h
  · intro hd
    refine ⟨?_, ?_⟩
    · intro k hk
      unfold fileStatus at hk
      rcases Option.map_eq_some'.mp hk with ⟨f0, hf0, hst0⟩
      exact run_file_ready_noTopic hd hf0 hst0
    · intro t ht
      exact run_session_ready_noTopic hd ht

/-- C2 amended, witness: concrete instantiation of the amended claim on a
ready store with a duplicate no-topic notification. -/
theorem c2_amended_witness :
    fileStatus (handle_gcs_finalize_push enqOk 0 "F9" pOct stReady).store "k2"
      ≠ some "authorized" ∧
    fileStatus (handle_gcs_finalize_push enqOk 0 "F9" pOct stReady).store "k2"
      = some "ready" ∧
    sessionStatus (handle_gcs_finalize_push enqOk 0 "F9" pOct stReady).store "U1"
      = some "ready" :=
  ⟨(c2_amended_monotonicity enqOk 0 "F9" pOct stReady).1 "k2" (by decide),
   ((c2_amended_monotonicity enqOk 0 "F9" pOct stReady).2.2 (by decide)).1 "k2" (by decide),
   ((c2_amended_monotonicity enqOk 0 "F9" pOct stReady).2.2 (by decide)).2 "U1" (by decide)⟩

/-- C3: the claim says the metadata the Initiator attaches
(`{datastoreId, uploadSessionId, fileId}`) lets the processor recover the
session id, mark the session uploaded and link the File.  But the
processor reads the key `uploadId`, which the Initiator never writes: on
a payload carrying exactly the attached metadata, the lookup is `none`,
the run succeeds without marking the session (it stays `authorized`) and
the File link stays unset — the round-trip is broken. -/
theorem c3_metadata_key_mismatch :
    (∀ d s f, (gcs_metadata_for d s f).lookup "uploadId" = none) ∧
    (handle_gcs_finalize_push enqOk 0 "F9" pInit st0).err = none ∧
    sessionStatus (handle_gcs_finalize_push enqOk 0 "F9" pInit st0).store "U1"
      = some "authorized" ∧
    fileLinkAt (handle_gcs_finalize_push enqOk 0 "F9" pInit st0).store "k3"
      = some none := by
  refine ⟨fun d s f => rfl, ?_, ?_, ?_⟩ <;> decide

/-- C4: a decoded finalize payload lacking the bucket, the object key or
the correlating datastoreId makes the handler fail with the
missing-fields error, with the store unchanged and no job enqueued — the
validation precedes every store call. -/
theorem c4_missing_fields_no_mutation (enq : String → Job → Bool) (now : Int)
    (freshId : String) (p : FinalizePayload) (st : Store)
    (h : p.bucket = none ∨ p.name = none ∨ p.metadata.lookup "datastoreId" = none) :
    handle_gcs_finalize_push enq now freshId p st
      = ⟨st, [], some .missingFields⟩ := by
  apply handle_missing
  rcases h with h | h | h <;> simp [truthy, h]

/-- C4 witness: a payload with no bucket, evaluated concretely. -/
theorem c4_witness :
    handle_gcs_finalize_push enqOk 0 "F1" pMissing st0
      = ⟨st0, [], some .missingFields⟩ :=
  c4_missing_fields_no_mutation enqOk 0 "F1" pMissing st0 (Or.inl rfl)

/-- C5: the routing table matches in order by prefix after lowercasing —
`application/pdf` to `process-pdf`, any `video/` prefix to
`process-video`, any `image/` prefix to `process-image`, exactly
`text/csv` or `application/csv` to `process-csv`, first match wins — any
other content type (such as `application/octet-stream`) yields no topic,
and in that case a validated finalize run enqueues nothing, succeeds,
marks the File at the payload key ready, and marks the correlated
Session (any existing session named by a truthy metadata uploadId)
ready as well. -/
theorem c5_routing_table (ct : String) :
    (pyStartsWith (pyLower ct) "application/pdf" = true →
      detectJobTopic ct = some "process-pdf") ∧
    (pyStartsWith (pyLower ct) "application/pdf" = false →
      pyStartsWith (pyLower ct) "video/" = true →
      detectJobTopic ct = some "process-video") ∧
    (pyStartsWith (pyLower ct) "application/pdf" = false →
      pyStartsWith (pyLower ct) "video/" = false →
      pyStartsWith (pyLower ct) "image/" = true →
      detectJobTopic ct = some "process-image") ∧
    (pyStartsWith (pyLower ct) "application/pdf" = false →
      pyStartsWith (pyLower ct) "video/" = false →
      pyStartsWith (pyLower ct) "image/" = false →
      (pyLower ct = "text/csv" ∨ pyLower ct = "application/csv") →
      detectJobTopic ct = some "process-csv") ∧
    (pyStartsWith (pyLower ct) "application/pdf" = false →
      pyStartsWith (pyLower ct) "video/" = false →
      pyStartsWith (pyLower ct) "image/" = false →
      ¬ pyLower ct = "text/csv" → ¬ pyLower ct = "application/csv" →
      detectJobTopic ct = none) ∧
    detectJobTopic "image/png" = some "process-image" ∧
    detectJobTopic "application/octet-stream" = none ∧
    (∀ (enq : String → Job → Bool) (now : Int) (freshId : String)
      (p : FinalizePayload) (st : Store),
      (truthy p.bucket && truthy p.name && truthy (p.metadata.lookup "datastoreId")) = true →
      detectJobTopic (effContentType p) = none →
      (handle_gcs_finalize_push enq now freshId p st).jobs = [] ∧
      (handle_gcs_finalize_push enq now freshId p st).err = none ∧
      fileStatus (handle_gcs_finalize_push enq now freshId p st).store
        ((p.name).getD "") = some "ready" ∧
      (∀ sid, p.metadata.lookup "uploadId" = some sid → (sid == "") = false →
        (sessionStatus st sid).isSome = true →
        sessionStatus (handle_gcs_finalize_push enq now freshId p st).store sid
          = some "ready")) := by
  refine ⟨?_, ?_, ?_, ?_, ?_, by decide, by decide, ?_⟩
  · intro h
    have hne : (ct == "") = false := by
      rcases Bool.eq_false_or_eq_true (ct == "") with hb | hb
      · exfalso
        have hc : ct = "" := eq_of_beq hb
        subst hc
        exact absurd h (by decide)
      · exact hb
    simp [detectJobTopic, hne, h]
  · intro h1 h2
    have hne : (ct == "") = false := by
      rcases Bool.eq_false_or_eq_true (ct == "") with hb | hb
      · exfalso
        have hc : ct = "" := eq_of_beq hb
        subst hc
        exact absurd h2 (by decide)
      · exact hb
    simp [detectJobTopic, hne, h1, h2]
  · intro h1 h2 h3
    have hne : (ct == "") = false := by
      rcases Bool.eq_false_or_eq_true (ct == "") with hb | hb
      · exfalso
        have hc : ct = "" := eq_of_beq hb
        subst hc
        exact absurd h3 (by decide)
      · exact hb
    simp [detectJobTopic, hne, h1, h2, h3]
  · intro h1 h2 h3 h4
    have hne : (ct == "") = false := by
      rcases Bool.eq_false_or_eq_true (ct == "") with hb | hb
      · exfalso
        have hc : ct = "" := eq_of_beq hb
        subst hc
        rcases h4 with h | h <;> exact absurd h (by decide)
      · exact hb
    rcases h4 with h | h <;> simp [detectJobTopic, hne, h1, h2, h3, h] <;> decide
  · intro h1 h2 h3 h4 h5
    by_cases hb : ct = ""
    · subst hb
      decide
    · have hne : (ct == "") = false := beq_eq_false_iff_ne.mpr hb
      simp [detectJobTopic, hne, h1, h2, h3,
        beq_eq_false_iff_ne.mpr h4, beq_eq_false_iff_ne.mpr h5]
  · intro enq now freshId p st hv hd
    exact ⟨(run_noTopic_out hv hd).1, (run_noTopic_out hv hd).2,
      run_target_ready_noTopic hv hd,
      fun sid hu hne hex => run_session_self_ready_noTopic hv hd hu hne hex⟩

/-- C5 witness: the routing conjuncts applied at concrete content types
and the no-topic handler behavior — no job, File ready, correlated
Session ready — at a concrete octet-stream payload. -/
theorem c5_witness :
    detectJobTopic "video/mp4" = some "process-video" ∧
    detectJobTopic "Application/PDF" = some "process-pdf" ∧
    detectJobTopic "text/csv" = some "process-csv" ∧
    detectJobTopic "text/plain" = none ∧
    (handle_gcs_finalize_push enqOk 0 "F1" pOct st0).jobs = [] ∧
    fileStatus (handle_gcs_finalize_push enqOk 0 "F1" pOct st0).store "k2"
      = some "ready" ∧
    sessionStatus (handle_gcs_finalize_push enqOk 0 "F1" pOct st0).store "U1"
      = some "ready" :=
  ⟨(c5_routing_table "video/mp4").2.1 (by decide) (by decide),
   (c5_routing_table "Application/PDF").1 (by decide),
   (c5_routing_table "text/csv").2.2.2.1 (by decide) (by decide) (by decide)
     (Or.inl (by decide)),
   (c5_routing_table "text/plain").2.2.2.2.1 (by decide) (by decide) (by decide)
     (by decide) (by decide),
   ((c5_routing_table "x").2.2.2.2.2.2.2 enqOk 0 "F1" pOct st0 (by decide) (by decide)).1,
   ((c5_routing_table "x").2.2.2.2.2.2.2 enqOk 0 "F1" pOct st0 (by decide) (by decide)).2.2.1,
   ((c5_routing_table "x").2.2.2.2.2.2.2 enqOk 0 "F1" pOct st0 (by decide)
     (by decide)).2.2.2 "U1" (by decide) (by decide) (by decide)⟩

/-- C6: when the routing topic is found and the enqueue call raises, the
handler propagates the dispatch error to its caller, records no enqueued
job, and the UploadSession is not advanced to `processing` or `ready` —
the model runs the enqueue (with its blocking confirmation) strictly
before `mark_processing`, so a failed enqueue leaves the session where
the upsert/link stages left it. -/
theorem c6_enqueue_failure_aborts (enq : String → Job → Bool) (now : Int)
    (freshId : String) (p : FinalizePayload) (st : Store) (topic : String)
    (hv : (truthy p.bucket && truthy p.name && truthy (p.metadata.lookup "datastoreId")) = true)
    (ht : detectJobTopic (effContentType p) = some topic)
    (he : ∀ tp j, enq tp j = false) :
    (handle_gcs_finalize_push enq now freshId p st).err = some .dispatch ∧
    (handle_gcs_finalize_push enq now freshId p st).jobs = [] ∧
    (∀ t, sessionStatus (handle_gcs_finalize_push enq now freshId p st).store t
        = some "processing" → sessionStatus st t = some "processing") ∧
    (∀ t, sessionStatus (handle_gcs_finalize_push enq now freshId p st).store t
        = some "ready" → sessionStatus st t = some "ready") := by
  have hrun := @run_dispatch_fail enq now freshId p st topic hv ht he
  rw [hrun]
  refine ⟨rfl, rfl, ?_, ?_⟩
  · intro t h
    rcases stage12_session_post h with h1 | h1
    · exact absurd h1 (by decide)
    · exact h1
  · intro t h
    rcases stage12_session_post h with h1 | h1
    · exact absurd h1 (by decide)
    · exact h1

/-- C6 witness: a PDF finalize push with a failing publisher, on the
authorized-session store. -/
theorem c6_witness :
    (handle_gcs_finalize_push enqFail 0 "F1" pPdf st0).err = some .dispatch ∧
    (handle_gcs_finalize_push enqFail 0 "F1" pPdf st0).jobs = [] ∧
    (∀ t, sessionStatus (handle_gcs_finalize_push enqFail 0 "F1" pPdf st0).store t
        = some "processing" → sessionStatus st0 t = some "processing") ∧
    (∀ t, sessionStatus (handle_gcs_finalize_push enqFail 0 "F1" pPdf st0).store t
        = some "ready" → sessionStatus st0 t = some "ready") :=
  c6_enqueue_failure_aborts enqFail 0 "F1" pPdf st0 "process-pdf"
    (by decide) (by decide) (fun tp j => rfl)

/-- C7 counterexample: the claim says the sanitized filename has all
whitespace replaced and all path separators stripped.  The code only
replaces spaces and strips nothing: for the filename `x/y` the code key
keeps the slash while the spec-side key (sanitizer written from the spec
words) strips it, so the two differ. -/
theorem c7_counterexample :
    object_key_for "raw" "ds1" "S1" "F1" "x/y"
      = "raw/datastore/ds1/session/S1/file/F1/x/y" ∧
    specObjectKey "raw" "ds1" "S1" "F1" "x/y"
      = "raw/datastore/ds1/session/S1/file/F1/xy" ∧
    object_key_for "raw" "ds1" "S1" "F1" "x/y"
      ≠ specObjectKey "raw" "ds1" "S1" "F1" "x/y" := by
  decide

/-- C7 amended: the derived key is
`<basePfx>/datastore/<d>/session/<s>/file/<f>/<name>` where the sanitized
name replaces only spaces with underscores (path separators and other
whitespace are kept verbatim), an empty filename becomes `unnamed`, and
empty segments are omitted from the join. -/
theorem c7_amended (basePfx did sid fid name : String)
    (hb : basePfx ≠ "") (hd : did ≠ "") (hs : sid ≠ "") (hf : fid ≠ "") :
    object_key_for basePfx did sid fid name =
      basePfx ++ "/" ++ "datastore" ++ "/" ++ did ++ "/" ++ "session" ++ "/" ++ sid
        ++ "/" ++ "file" ++ "/" ++ fid ++ "/" ++ sanitizeName name ∧
    object_key_for "" did sid fid name =
      "datastore" ++ "/" ++ did ++ "/" ++ "session" ++ "/" ++ sid ++ "/" ++ "file"
        ++ "/" ++ fid ++ "/" ++ sanitizeName name ∧
    sanitizeName "" = "unnamed" ∧
    sanitizeName "a b c" = "a_b_c" ∧
    sanitizeName "x/y" = "x/y" ∧
    sanitizeName "a\tb" = "a\tb" :=
  ⟨object_key_concat basePfx did sid fid name (beq_eq_false_iff_ne.mpr hb)
      (beq_eq_false_iff_ne.mpr hd) (beq_eq_false_iff_ne.mpr hs)
      (beq_eq_false_iff_ne.mpr hf),
   object_key_concat_noBase did sid fid name (beq_eq_false_iff_ne.mpr hd)
      (beq_eq_false_iff_ne.mpr hs) (beq_eq_false_iff_ne.mpr hf),
   by decide, by decide, by decide, by decide⟩

/-- C7 amended, witness: the amended key shape at concrete segments with
a space-bearing filename. -/
theorem c7_witness :
    object_key_for "raw" "ds1" "S1" "F1" "a b" =
      "raw" ++ "/" ++ "datastore" ++ "/" ++ "ds1" ++ "/" ++ "session" ++ "/" ++ "S1"
        ++ "/" ++ "file" ++ "/" ++ "F1" ++ "/" ++ sanitizeName "a b" :=
  (c7_amended "raw" "ds1" "S1" "F1" "a b" (by decide) (by decide) (by decide)
    (by decide)).1

/-- C8: for a batch of N files (N at least 1) whose initiation calls all
succeed, the handler persists exactly one UploadSession row with status
`authorized` and exactly N File rows with status `authorized`, one per
input file in input order (matching filenames), each linked to the batch
session, and the N object keys are pairwise distinct (the generated file
ids are modelled, per spec 4.1, as distinct, non-empty and slash-free
identifiers). -/
theorem c8_batch_cardinality (initiate : InitiateFn)
    (basePfx bucketName did : String) (tags : List String)
    (files : List FileSpec) (sid : String) (fileIds : List String) (st : Store)
    (hne : files ≠ [])
    (hlen : fileIds.length = files.length)
    (hnd : fileIds.Nodup)
    (hids : ∀ fid ∈ fileIds, (fid == "") = false ∧ '/' ∉ fid.data)
    (hI : ∀ b k c z m, (initiate b k c z m).isSome = true) :
    (∃ outs, (do_process initiate basePfx bucketName did tags files sid fileIds st).2
        = .ok outs ∧ outs.length = files.length) ∧
    (do_process initiate basePfx bucketName did tags files sid fileIds st).1.sessions
      = st.sessions ++ [⟨sid, did, tags, "authorized"⟩] ∧
    (do_process initiate basePfx bucketName did tags files sid fileIds st).1.files
      = st.files ++ rowsFor bucketName did sid basePfx (files.zip fileIds) ∧
    (rowsFor bucketName did sid basePfx (files.zip fileIds)).length = files.length ∧
    (∀ row ∈ rowsFor bucketName did sid basePfx (files.zip fileIds),
      row.status = "authorized" ∧ row.upload_id = some sid) ∧
    (rowsFor bucketName did sid basePfx (files.zip fileIds)).map
        (fun row => row.filename)
      = files.map (fun sp => sp.filename) ∧
    ((rowsFor bucketName did sid basePfx (files.zip fileIds)).map
        (fun row => row.object_key)).Nodup := by
  have hle : files.length ≤ fileIds.length := le_of_eq hlen.symm
  have hzlen : (files.zip fileIds).length = files.length := by
    rw [List.length_zip, hlen, Nat.min_self]
  obtain ⟨outs, hq, hlen2⟩ := processFiles_success initiate basePfx bucketName did sid hI
    (files.zip fileIds)
    { st with sessions := st.sessions ++ [⟨sid, did, tags, "authorized"⟩] }
  refine ⟨⟨outs, ?_, hlen2.trans hzlen⟩, ?_, ?_, ?_, ?_, ?_, ?_⟩
  · exact congrArg Prod.snd hq
  · exact congrArg (fun x => x.1.sessions) hq
  · exact congrArg (fun x => x.1.files) hq
  · simp [rowsFor, hzlen]
  · intro row hrow
    unfold rowsFor at hrow
    rcases List.mem_map.mp hrow with ⟨pr, hpr, hmk⟩
    rw [← hmk]
    exact ⟨rfl, rfl⟩
  · have hfst := List.map_fst_zip files fileIds hle
    have h1 : (rowsFor bucketName did sid basePfx (files.zip fileIds)).map
        (fun row => row.filename)
      = (files.zip fileIds).map (fun pr => pr.1.filename) := by
      unfold rowsFor
      rw [List.map_map]
      rfl
    have h2 : (files.zip fileIds).map (fun pr => pr.1.filename)
        = ((files.zip fileIds).map Prod.fst).map (fun sp => sp.filename) := by
      rw [List.map_map]
      rfl
    rw [h1, h2, hfst]
  · have hsnd : (files.zip fileIds).map Prod.snd = fileIds :=
      List.map_snd_zip files fileIds (le_of_eq hlen)
    have hkeys := batch_keys_nodup basePfx did sid (files.zip fileIds)
      (by rw [hsnd]; exact hnd)
      (fun pr hpr => by
        have hm := List.mem_map_of_mem Prod.snd hpr
        rw [hsnd] at hm
        exact hids pr.2 hm)
    have heq : (rowsFor bucketName did sid basePfx (files.zip fileIds)).map
        (fun row => row.object_key)
      = (files.zip fileIds).map
          (fun pr => object_key_for basePfx did sid pr.2 pr.1.filename) := by
      unfold rowsFor
      rw [List.map_map]
      rfl
    rw [heq]
    exact hkeys

/-- C8 witness: a two-file batch against an always-successful backend. -/
theorem c8_witness :
    (∃ outs, (do_process initOk "raw" "bkt" "ds1" [] [specA, specB] "S1" ["F1", "F2"]
        Store.empty).2 = .ok outs ∧ outs.length = ([specA, specB] : List FileSpec).length) ∧
    (do_process initOk "raw" "bkt" "ds1" [] [specA, specB] "S1" ["F1", "F2"]
        Store.empty).1.sessions
      = Store.empty.sessions ++ [⟨"S1", "ds1", [], "authorized"⟩] ∧
    (do_process initOk "raw" "bkt" "ds1" [] [specA, specB] "S1" ["F1", "F2"]
        Store.empty).1.files
      = Store.empty.files ++ rowsFor "bkt" "ds1" "S1" "raw" ([specA, specB].zip ["F1", "F2"]) ∧
    (rowsFor "bkt" "ds1" "S1" "raw" ([specA, specB].zip ["F1", "F2"])).length
      = ([specA, specB] : List FileSpec).length ∧
    (∀ row ∈ rowsFor "bkt" "ds1" "S1" "raw" ([specA, specB].zip ["F1", "F2"]),
      row.status = "authorized" ∧ row.upload_id = some "S1") ∧
    (rowsFor "bkt" "ds1" "S1" "raw" ([specA, specB].zip ["F1", "F2"])).map
        (fun row => row.filename)
      = [specA, specB].map (fun sp => sp.filename) ∧
    ((rowsFor "bkt" "ds1" "S1" "raw" ([specA, specB].zip ["F1", "F2"])).map
        (fun row => row.object_key)).Nodup :=
  c8_batch_cardinality initOk "raw" "bkt" "ds1" [] [specA, specB] "S1" ["F1", "F2"]
    Store.empty (by decide) (by decide) (by decide)
    (by intro fid hfid; fin_cases hfid <;> exact ⟨by decide, by decide⟩)
    (fun b k c z m => rfl)

/-- C9 counterexample: the claim says the response surfaces a per-file
error and reports which files succeeded.  When the backend rejects the
second file of a two-file batch, the handler instead returns the
undifferentiated batch-level storage error (carrying no per-file data),
while both File rows — the succeeded first file and the failing second —
are already persisted with status `authorized`: a half-committed batch
with no per-file report. -/
theorem c9_counterexample :
    (do_process initFailB "raw" "bkt" "ds1" [] [specA, specB] "S1" ["F1", "F2"]
        Store.empty).2 = .error .storageInitiation ∧
    ((do_process initFailB "raw" "bkt" "ds1" [] [specA, specB] "S1" ["F1", "F2"]
        Store.empty).1.files.map (fun f => f.status)) = ["authorized", "authorized"] ∧
    (do_process initFailB "raw" "bkt" "ds1" [] [specA, specB] "S1" ["F1", "F2"]
        Store.empty).1.files.length = 2 := by
  decide

/-- C9 amended: when the storage backend rejects the initiation of one
file of a batch, the whole request fails with the batch-level
`StorageInitiationError` (no per-file success report is returned); the
session row and the File rows persisted so far — the succeeded ones and
the failing file, all `authorized` — remain in the store, and the
remaining files are not processed. -/
theorem c9_amended (initiate : InitiateFn) (basePfx bucketName did : String)
    (tags : List String) (files : List FileSpec) (sid : String)
    (fileIds : List String) (st : Store) (pre : List (FileSpec × String))
    (spec : FileSpec) (fid : String) (rest : List (FileSpec × String))
    (hzip : files.zip fileIds = pre ++ (spec, fid) :: rest)
    (hok : ∀ pr ∈ pre, (initiate bucketName
        (mkFileRow bucketName did sid basePfx pr.1 pr.2).object_key
        (orDefault pr.1.content_type "application/octet-stream") pr.1.size_bytes
        (gcs_metadata_for did sid pr.2)).isSome = true)
    (hfail : initiate bucketName (mkFileRow bucketName did sid basePfx spec fid).object_key
        (orDefault spec.content_type "application/octet-stream") spec.size_bytes
        (gcs_metadata_for did sid fid) = none) :
    (do_process initiate basePfx bucketName did tags files sid fileIds st).2
      = .error .storageInitiation ∧
    (do_process initiate basePfx bucketName did tags files sid fileIds st).1.sessions
      = st.sessions ++ [⟨sid, did, tags, "authorized"⟩] ∧
    (do_process initiate basePfx bucketName did tags files sid fileIds st).1.files
      = st.files ++ rowsFor bucketName did sid basePfx (pre ++ [(spec, fid)]) ∧
    (∀ row ∈ rowsFor bucketName did sid basePfx (pre ++ [(spec, fid)]),
      row.status = "authorized") := by
  have hq := processFiles_fail initiate basePfx bucketName did sid pre spec fid rest
    { st with sessions := st.sessions ++ [⟨sid, did, tags, "authorized"⟩] } hok hfail
  have hdo : do_process initiate basePfx bucketName did tags files sid fileIds st
      = processFiles initiate basePfx bucketName did sid (pre ++ (spec, fid) :: rest)
        { st with sessions := st.sessions ++ [⟨sid, did, tags, "authorized"⟩] } := by
    show processFiles initiate basePfx bucketName did sid (files.zip fileIds)
        { st with sessions := st.sessions ++ [⟨sid, did, tags, "authorized"⟩] } = _
    rw [hzip]
  rw [hdo, hq]
  refine ⟨rfl, rfl, rfl, ?_⟩
  intro row hrow
  unfold rowsFor at hrow
  rcases List.mem_map.mp hrow with ⟨pr, hpr, hmk⟩
  rw [← hmk]
  rfl

/-- C9 amended, witness: the two-file batch whose second initiation
fails, instantiated concretely. -/
theorem c9_amended_witness :
    (do_process initFailB "raw" "bkt" "ds1" [] [specA, specB] "S1" ["F1", "F2"]
        Store.empty).2 = .error .storageInitiation ∧
    (do_process initFailB "raw" "bkt" "ds1" [] [specA, specB] "S1" ["F1", "F2"]
        Store.empty).1.sessions
      = Store.empty.sessions ++ [⟨"S1", "ds1", [], "authorized"⟩] ∧
    (do_process initFailB "raw" "bkt" "ds1" [] [specA, specB] "S1" ["F1", "F2"]
        Store.empty).1.files
      = Store.empty.files ++ rowsFor "bkt" "ds1" "S1" "raw" [(specA, "F1"), (specB, "F2")] ∧
    (∀ row ∈ rowsFor "bkt" "ds1" "S1" "raw" [(specA, "F1"), (specB, "F2")],
      row.status = "authorized") :=
  c9_amended initFailB "raw" "bkt" "ds1" [] [specA, specB] "S1" ["F1", "F2"]
    Store.empty [(specA, "F1")] specB "F2" [] rfl
    (by intro pr hpr; fin_cases hpr; decide) (by decide)

/-- C10: for a finalize payload that passes the required-field
validation, an absent size or a size value that Python `int` cannot parse
never makes the handler fail: with a confirming publisher the run
succeeds, the File at the payload key is upserted with size 0, and every
enqueued job carries size 0. -/
theorem c10_size_coercion (enq : String → Job → Bool) (now : Int)
    (freshId : String) (p : FinalizePayload) (st : Store)
    (hv : (truthy p.bucket && truthy p.name && truthy (p.metadata.lookup "datastoreId")) = true)
    (hs : p.size = none ∨ ∃ s, p.size = some s ∧ pyParseInt s = none)
    (he : ∀ tp j, enq tp j = true) :
    (handle_gcs_finalize_push enq now freshId p st).err = none ∧
    fileSizeAt (handle_gcs_finalize_push enq now freshId p st).store ((p.name).getD "")
      = some 0 ∧
    (∀ tj ∈ (handle_gcs_finalize_push enq now freshId p st).jobs, (tj.2).size = 0) := by
  have hz : effSize p = 0 := by
    unfold effSize
    rcases hs with h | ⟨s, hsome, hparse⟩
    · rw [h]
      decide
    · rw [hsome]
      unfold orDefault
      by_cases hse : (s == "") = true
      · simp [hse]
        decide
      · simp [hse, hparse]
  obtain ⟨herr, hjobs⟩ := run_enqOk_out hv he
  exact ⟨herr, by rw [run_target_size hv, hz],
    fun tj htj => by rw [hjobs tj htj, hz]⟩

/-- C10 witness: a PDF payload whose size field is `"abc"`. -/
theorem c10_witness :
    (handle_gcs_finalize_push enqOk 0 "F1" pBadSize st0).err = none ∧
    fileSizeAt (handle_gcs_finalize_push enqOk 0 "F1" pBadSize st0).store
      ((pBadSize.name).getD "") = some 0 ∧
    (∀ tj ∈ (handle_gcs_finalize_push enqOk 0 "F1" pBadSize st0).jobs,
      (tj.2).size = 0) :=
  c10_size_coercion enqOk 0 "F1" pBadSize st0 (by decide)
    (Or.inr ⟨"abc", rfl, by decide⟩) (fun tp j => rfl)

end UploadManager
